import Mathlib

/-!
Verification of the ripix pixel-to-segment conversion (src/ripix/pixel.py,
src/ripix/functions.py) against its natural-language specification.

The embedding models rich segments and styles, an abstract decoded raster
image (width, height, per-coordinate RGBA sampling), the synchronous
converter Pixels._segments_from_image, the asynchronous converter
AsyncPixels._segments_from_image (whose failure mode is made explicit in an
Except monad), and Pixels.from_ascii.
-/

namespace Ripix

/-- Model of a rich Style value as it occurs in this program: either the
null style (covering both the Python value None and the Style.null()
singleton, which carry no styling) or the result of Style.parse applied to
a descriptor string. -/
inductive RStyle where
  | null : RStyle
  | parsed (descriptor : String) : RStyle
deriving DecidableEq, Repr

/-- Model of rich.segment.Segment: a piece of text together with a style.
(The third Python field, control, is never set by this program.) -/
structure Segment where
  text : String
  style : RStyle
deriving DecidableEq, Repr

/-- One RGBA pixel sample as returned by Image.getpixel on an RGBA image:
an (r, g, b, a) quadruple of unsigned bytes. -/
structure RGBA where
  r : Nat
  g : Nat
  b : Nat
  a : Nat
deriving DecidableEq, Repr

/-- Abstract decoded raster image: its dimensions and its per-coordinate
RGBA sampling function (the view that image.convert("RGBA").getpixel
exposes to the converter). -/
structure PImage where
  width : Nat
  height : Nat
  pixel : Nat → Nat → RGBA

/-- The f-string descriptor built at pixel.py line 68:
f"on rgb({r},{g},{b})" with the three channel values interpolated. -/
def rgbDescriptor (r g b : Nat) : String :=
  "on rgb(" ++ toString r ++ "," ++ toString g ++ "," ++ toString b ++ ")"

/-- Style.parse applied to a descriptor string. -/
def parse_style (s : String) : RStyle :=
  RStyle.parsed s

/-- Style.null(), the null style singleton. -/
def null_style : RStyle :=
  RStyle.null

/-- The Python expression t[1] == "" at pixel.py line 74, comparing a
segment style to the empty str. The style is always a Style instance
(Style.parse result or Style.null()); rich Style.__eq__ returns
NotImplemented for non-Style operands and str.__eq__ likewise for
non-str operands, so Python falls back to identity and the comparison
always evaluates to False. -/
def styleEqEmptyStr (_s : RStyle) : Bool :=
  false

/-- image.convert("RGBA") at pixel.py line 56: on the abstract image, which
is already presented through its RGBA sampling view, the conversion is the
identity. -/
def convertRGBA (img : PImage) : PImage :=
  img

/-- Modelled from PIL: image.resize((w, h), resample=Resampling.NEAREST).
Destination pixel (x, y) samples the source at the nearest source
coordinate, floor((x + 1/2) * srcW / w) horizontally and likewise
vertically, written in exact natural-number arithmetic. -/
def resizeNearest (img : PImage) (w h : Nat) : PImage :=
  PImage.mk w h
    (fun x y =>
      img.pixel ((2 * x + 1) * img.width / (2 * w))
        ((2 * y + 1) * img.height / (2 * h)))

/-- The segment produced for the pixel sampled at (x, y), pixel.py lines
67-69: read (r, g, b, a); style is parse_style of the rgb descriptor when
a > 0 and the null style otherwise; the text is two spaces. -/
def pixelSegment (img : PImage) (x y : Nat) : Segment :=
  let p := img.pixel x y
  let style := if p.a > 0 then parse_style (rgbDescriptor p.r p.g p.b) else null_style
  Segment.mk "  " style

/-- One completed row, pixel.py lines 63-71: the width pixel segments for
columns 0 .. width-1 in order, then the newline segment with the null
style. -/
def rowSegments (img : PImage) (y : Nat) : List Segment :=
  ((List.range img.width).map (fun x => pixelSegment img x y)) ++
    [Segment.mk "\n" null_style]

/-- The row-retention test, pixel.py line 74:
not all(t[1] == "" for t in this_row[:-1]). this_row[:-1] drops the
trailing newline segment. -/
def keepRow (row : List Segment) : Bool :=
  !(row.dropLast.all (fun t => styleEqEmptyStr t.style))

/-- The image the row loop actually samples: pixel.py lines 52-53 resize
the input when a resize tuple was supplied (a supplied 2-tuple is always
truthy, and the asynchronous variant tests resize is not None, which
matches the same option). -/
def effectiveImage (image : PImage) (resize : Option (Nat × Nat)) : PImage :=
  match resize with
  | some (w, h) => resizeNearest image w h
  | none => image

/-- Pixels._segments_from_image, pixel.py lines 47-77: optional nearest
resize, RGBA conversion, then the row loop accumulating every retained
row into the flat output list. -/
def segmentsFromImage (image : PImage) (resize : Option (Nat × Nat)) :
    List Segment :=
  let image := effectiveImage image resize
  let image := convertRGBA image
  (List.range image.height).foldl
    (fun segments y =>
      let thisRow := rowSegments image y
      if keepRow thisRow then segments ++ thisRow else segments)
    []

/-- A Python exception surfaced by the asynchronous converter. -/
inductive PyError where
  | typeError : PyError
deriving DecidableEq, Repr

/-- The Python expression all(t[1] == "" async for t in aiter(...)) at
pixel.py line 186: the comprehension with async for builds an asynchronous
generator object, which is not iterable, so the synchronous built-in all
raises TypeError before consuming any element. The argument records the
element tests the comprehension would have produced. -/
def pyAllOverAsyncGen (_items : List Bool) : Except PyError Bool :=
  Except.error PyError.typeError

/-- AsyncPixels._segments_from_image, pixel.py lines 158-189: the same
pipeline as the synchronous converter (resize when resize is not None,
RGBA conversion, the same per-pixel styles and row assembly), except that
the row-retention test calls the built-in all on an asynchronous
generator, which raises TypeError; the computation is threaded through
Except so that the raised exception is explicit. -/
def asyncSegmentsFromImage (image : PImage) (resize : Option (Nat × Nat)) :
    Except PyError (List Segment) :=
  let image := effectiveImage image resize
  let image := convertRGBA image
  (List.range image.height).foldlM
    (fun segments y =>
      let thisRow := rowSegments image y
      do
        let allEmpty ← pyAllOverAsyncGen
          (thisRow.dropLast.map (fun t => styleEqEmptyStr t.style))
        pure (if !allEmpty then segments ++ thisRow else segments))
    []

/-- The default segment Segment(character) for a character with no mapping
entry, pixel.py line 111: its text is the one character and its style is
the Python default None, represented by the null style. -/
def defaultSegment (c : Char) : Segment :=
  Segment.mk (String.mk [c]) RStyle.null

/-- Pixels.from_ascii, pixel.py lines 88-114, segment-building part: when
the grid is empty (falsy) the early return yields the empty sequence;
otherwise the loop walks the characters of the grid in document order and
appends mapping.get(character, Segment(character)) for each. The mapping
is abstracted as a partial lookup from characters to segments. -/
def from_ascii (grid : String) (mapping : Char → Option Segment) :
    List Segment :=
  if grid.isEmpty then []
  else
    grid.toList.foldl
      (fun segments character =>
        segments ++ [(mapping character).getD (defaultSegment character)])
      []

end Ripix

namespace Ripix

/-! ### General lemmas about the row loop -/

theorem dropLast_rowSegments (img : PImage) (y : Nat) :
    (rowSegments img y).dropLast =
      (List.range img.width).map (fun x => pixelSegment img x y) := by
  simp [rowSegments]

theorem length_rowSegments (img : PImage) (y : Nat) :
    (rowSegments img y).length = img.width + 1 := by
  simp [rowSegments]

theorem getLast_rowSegments (img : PImage) (y : Nat) :
    (rowSegments img y).getLast? = some (Segment.mk "\n" RStyle.null) := by
  simp [rowSegments, null_style]

/-- The retention test at pixel.py line 74 keeps a row exactly when the
image width is positive: the Style-to-str comparison is always False, so
all(...) over the non-terminal segments holds only when there are none. -/
theorem keepRow_rowSegments (img : PImage) (y : Nat) :
    keepRow (rowSegments img y) = decide (0 < img.width) := by
  unfold keepRow
  rw [dropLast_rowSegments]
  unfold styleEqEmptyStr
  cases hw : img.width with
  | zero => simp
  | succ n => simp [List.range_succ_eq_map]

theorem foldl_rows (img : PImage) (ys : List Nat) (acc : List Segment) :
    ys.foldl
      (fun segments y =>
        let thisRow := rowSegments img y
        if keepRow thisRow then segments ++ thisRow else segments) acc
    = acc ++ ((ys.map (rowSegments img)).filter keepRow).flatten := by
  induction ys generalizing acc with
  | nil => simp
  | cons y ys ih =>
    simp only [List.foldl_cons, List.map_cons, List.filter_cons]
    cases h : keepRow (rowSegments img y) with
    | false => simp [h, ih]
    | true => simp [h, ih]

theorem segmentsFromImage_eq (image : PImage) (resize : Option (Nat × Nat)) :
    segmentsFromImage image resize =
      (((List.range (effectiveImage image resize).height).map
        (rowSegments (effectiveImage image resize))).filter keepRow).flatten := by
  unfold segmentsFromImage convertRGBA
  exact foldl_rows _ _ []

theorem segmentsFromImage_of_width_pos (image : PImage) (resize : Option (Nat × Nat))
    (h : 0 < (effectiveImage image resize).width) :
    segmentsFromImage image resize =
      ((List.range (effectiveImage image resize).height).map
        (rowSegments (effectiveImage image resize))).flatten := by
  rw [segmentsFromImage_eq]
  congr 1
  apply List.filter_eq_self.mpr
  intro row hrow
  rcases List.mem_map.mp hrow with ⟨y, _, rfl⟩
  simp [keepRow_rowSegments, h]

theorem length_segmentsFromImage_of_width_pos (image : PImage)
    (resize : Option (Nat × Nat))
    (h : 0 < (effectiveImage image resize).width) :
    (segmentsFromImage image resize).length =
      (effectiveImage image resize).height *
        ((effectiveImage image resize).width + 1) := by
  rw [segmentsFromImage_of_width_pos image resize h]
  rw [List.length_flatten, List.map_map]
  have hc : (List.length ∘ rowSegments (effectiveImage image resize)) =
      fun _ : Nat => (effectiveImage image resize).width + 1 := by
    funext y
    simp [length_rowSegments]
  rw [hc]
  simp [List.map_const]

theorem segmentsFromImage_of_width_zero (image : PImage)
    (resize : Option (Nat × Nat))
    (h : (effectiveImage image resize).width = 0) :
    segmentsFromImage image resize = [] := by
  rw [segmentsFromImage_eq]
  have hall : ∀ row ∈ (List.range (effectiveImage image resize).height).map
      (rowSegments (effectiveImage image resize)), ¬ (keepRow row = true) := by
    intro row hrow
    rcases List.mem_map.mp hrow with ⟨y, _, rfl⟩
    simp [keepRow_rowSegments, h]
  rw [List.filter_eq_nil_iff.mpr hall]
  rfl

theorem asyncSegments_height_pos (image : PImage) (resize : Option (Nat × Nat))
    (h : 0 < (effectiveImage image resize).height) :
    asyncSegmentsFromImage image resize = Except.error PyError.typeError := by
  obtain ⟨n, hn⟩ : ∃ n, (effectiveImage image resize).height = n + 1 :=
    ⟨(effectiveImage image resize).height - 1, (Nat.succ_pred_eq_of_pos h).symm⟩
  show List.foldlM _ [] (List.range (effectiveImage image resize).height) = _
  rw [hn, List.range_succ_eq_map]
  rfl

theorem asyncSegments_height_zero (image : PImage) (resize : Option (Nat × Nat))
    (h : (effectiveImage image resize).height = 0) :
    asyncSegmentsFromImage image resize = Except.ok [] := by
  show List.foldlM _ [] (List.range (effectiveImage image resize).height) = _
  rw [h]
  rfl

theorem foldl_append_map {α β : Type} (f : α → β) (l : List α) (acc : List β) :
    l.foldl (fun s c => s ++ [f c]) acc = acc ++ l.map f := by
  induction l generalizing acc with
  | nil => simp
  | cons c l ih => simp [ih]

theorem pixelSegment_eq (img : PImage) (x y : Nat) :
    pixelSegment img x y =
      (if (img.pixel x y).a > 0
        then Segment.mk "  "
          (RStyle.parsed (rgbDescriptor (img.pixel x y).r (img.pixel x y).g
            (img.pixel x y).b))
        else Segment.mk "  " RStyle.null) := by
  unfold pixelSegment parse_style null_style
  split <;> simp_all

/-! ### Concrete images for witnesses and counterexamples -/

/-- A 1 by 1 image holding the opaque red pixel (255, 0, 0, 255). -/
def red1x1 : PImage := PImage.mk 1 1 (fun _ _ => RGBA.mk 255 0 0 255)

/-- A 1 by 1 fully transparent image: its only pixel has alpha 0. -/
def transp1x1 : PImage := PImage.mk 1 1 (fun _ _ => RGBA.mk 0 0 0 0)

/-- A zero-width image of height 1. -/
def img0x1 : PImage := PImage.mk 0 1 (fun _ _ => RGBA.mk 0 0 0 0)

/-- A zero-height image of width 3. -/
def img3x0 : PImage := PImage.mk 3 0 (fun _ _ => RGBA.mk 9 9 9 9)

/-- A 2 by 2 image with four distinct opaque pixels. -/
def img2x2 : PImage :=
  PImage.mk 2 2 (fun x y => RGBA.mk (10 * x) (10 * y) 7 255)

/-- The same 2 by 2 image written with a syntactically different sampling
function agreeing with img2x2 at every coordinate. -/
def img2x2b : PImage :=
  PImage.mk 2 2 (fun x y => RGBA.mk (10 * x + 0) (10 * y) 7 255)

end Ripix

namespace Ripix

/-- Claim C1, settled against the code at the failing input: on a fully
transparent 1 by 1 image the synchronous converter does not drop the row;
the output holds the transparent pixel segment and the newline segment, so
it is not the empty sequence the claim requires. The retention test
compares Style values to the empty str and never succeeds. -/
theorem claim1_transparent_rows_not_dropped :
    segmentsFromImage transp1x1 none =
      [Segment.mk "  " RStyle.null, Segment.mk "\n" RStyle.null] ∧
    segmentsFromImage transp1x1 none ≠ [] :=
  ⟨rfl, by decide⟩

/-- Claim C2, settled against the code at a failing input: on a 1 by 1
opaque red image the synchronous converter returns the two expected
segments while the asynchronous converter raises TypeError (the built-in
all is applied to an asynchronous generator), so the two facades do not
produce identical segment sequences. -/
theorem claim2_sync_async_divergence :
    segmentsFromImage red1x1 none =
      [Segment.mk "  " (RStyle.parsed "on rgb(255,0,0)"),
        Segment.mk "\n" RStyle.null] ∧
    asyncSegmentsFromImage red1x1 none = Except.error PyError.typeError :=
  ⟨rfl, rfl⟩

/-- Claim C3: the segment at column x of a row is the pixel segment for
(x, y); that segment is two spaces styled with the rgb background
descriptor when the sampled alpha is positive and two spaces with the null
style when the alpha is zero; and the 1 by 1 opaque red image converts to
exactly the styled blank followed by the null-style newline. -/
theorem claim3_pixel_segment (img : PImage) (x y : Nat) (hx : x < img.width) :
    ((rowSegments img y)[x]? = some (pixelSegment img x y) ∧
      pixelSegment img x y =
        (if (img.pixel x y).a > 0
          then Segment.mk "  "
            (RStyle.parsed (rgbDescriptor (img.pixel x y).r (img.pixel x y).g
              (img.pixel x y).b))
          else Segment.mk "  " RStyle.null)) ∧
    segmentsFromImage red1x1 none =
      [Segment.mk "  " (RStyle.parsed "on rgb(255,0,0)"),
        Segment.mk "\n" RStyle.null] := by
  refine ⟨⟨?_, pixelSegment_eq img x y⟩, rfl⟩
  unfold rowSegments
  rw [List.getElem?_append]
  simp [hx]

/-- Witness for claim C3 at the opaque red image, column 0, row 0. -/
theorem claim3_pixel_segment_witness :
    0 < red1x1.width ∧
    (rowSegments red1x1 0)[0]? = some (pixelSegment red1x1 0 0) :=
  ⟨by decide, ((claim3_pixel_segment red1x1 0 0 (by decide)).1).1⟩

/-- Claim C4: every retained row has exactly width + 1 segments and ends
with the null-style newline segment, and an image with at least one
in-bounds pixel of positive alpha converts to a non-empty sequence. -/
theorem claim4_row_shape_and_nonempty (image : PImage)
    (resize : Option (Nat × Nat)) :
    (∀ y, keepRow (rowSegments (effectiveImage image resize) y) = true →
      (rowSegments (effectiveImage image resize) y).length =
        (effectiveImage image resize).width + 1 ∧
      (rowSegments (effectiveImage image resize) y).getLast? =
        some (Segment.mk "\n" RStyle.null)) ∧
    ((∃ x y, x < (effectiveImage image resize).width ∧
        y < (effectiveImage image resize).height ∧
        0 < ((effectiveImage image resize).pixel x y).a) →
      segmentsFromImage image resize ≠ []) := by
  constructor
  · intro y _
    exact ⟨length_rowSegments _ y, getLast_rowSegments _ y⟩
  · rintro ⟨x, y, hx, hy, _⟩ hnil
    have hw : 0 < (effectiveImage image resize).width :=
      Nat.lt_of_le_of_lt (Nat.zero_le x) hx
    have hh : 0 < (effectiveImage image resize).height :=
      Nat.lt_of_le_of_lt (Nat.zero_le y) hy
    have hlen := length_segmentsFromImage_of_width_pos image resize hw
    rw [hnil] at hlen
    simp only [List.length_nil] at hlen
    have hpos : 0 < (effectiveImage image resize).height *
        ((effectiveImage image resize).width + 1) :=
      Nat.mul_pos hh (Nat.succ_pos _)
    exact absurd hlen.symm (Nat.ne_of_gt hpos)

/-- Witness for claim C4 at the opaque red image. -/
theorem claim4_row_shape_and_nonempty_witness :
    ((rowSegments (effectiveImage red1x1 none) 0).length =
      (effectiveImage red1x1 none).width + 1) ∧
    segmentsFromImage red1x1 none ≠ [] :=
  ⟨((claim4_row_shape_and_nonempty red1x1 none).1 0 (by decide)).1,
   (claim4_row_shape_and_nonempty red1x1 none).2
     ⟨0, 0, by decide, by decide, by decide⟩⟩

/-- Claim C5: from_ascii maps the characters of the grid in document
order, emitting the mapped segment when the mapping has an entry for the
character and the default unstyled one-character segment otherwise; the
empty grid yields the empty sequence and an unmapped character yields its
default segment rather than an error. -/
theorem claim5_from_ascii (grid : String) (mapping : Char → Option Segment) :
    from_ascii grid mapping =
      grid.toList.map (fun character =>
        (mapping character).getD (defaultSegment character)) ∧
    from_ascii "" mapping = [] ∧
    from_ascii "a" (fun _ => none) = [Segment.mk "a" RStyle.null] := by
  refine ⟨?_, rfl, rfl⟩
  unfold from_ascii
  by_cases hg : grid.isEmpty
  · rw [if_pos hg]
    have hgrid : grid = "" := (String.isEmpty_iff grid).mp hg
    subst hgrid
    rfl
  · rw [if_neg hg]
    exact foldl_append_map _ grid.toList []

/-- Claim C6, settled against the code at the failing input: the
synchronous converter returns the empty sequence for zero-width and
zero-height images, and the asynchronous converter does so for a
zero-height image, but on a zero-width image of height 1 the asynchronous
converter raises TypeError instead of returning the empty sequence. -/
theorem claim6_zero_size_images :
    segmentsFromImage img0x1 none = [] ∧
    segmentsFromImage img3x0 none = [] ∧
    asyncSegmentsFromImage img3x0 none = Except.ok [] ∧
    asyncSegmentsFromImage img0x1 none = Except.error PyError.typeError :=
  ⟨rfl, rfl, rfl, rfl⟩

/-- Claim C7: a supplied resize makes the converter sample the
nearest-neighbor resized image, and resizing a 2 by 2 image to 4 by 4
duplicates each source pixel into a 2 by 2 block with no blending. -/
theorem claim7_resize_nearest (img : PImage) (w h : Nat) :
    segmentsFromImage img (some (w, h)) =
      segmentsFromImage (resizeNearest img w h) none ∧
    (img.width = 2 → img.height = 2 → ∀ x y, x < 4 → y < 4 →
      (resizeNearest img 4 4).pixel x y = img.pixel (x / 2) (y / 2)) := by
  constructor
  · rfl
  · intro hw hh x y _hx _hy
    unfold resizeNearest
    have e1 : (2 * x + 1) * img.width / (2 * 4) = x / 2 := by rw [hw]; omega
    have e2 : (2 * y + 1) * img.height / (2 * 4) = y / 2 := by rw [hh]; omega
    simp only []
    rw [e1, e2]

/-- Witness for claim C7: the concrete 2 by 2 image resized to 4 by 4,
sampled at destination coordinate (3, 2). -/
theorem claim7_resize_nearest_witness :
    (resizeNearest img2x2 4 4).pixel 3 2 = img2x2.pixel (3 / 2) (2 / 2) :=
  (claim7_resize_nearest img2x2 4 4).2 rfl rfl 3 2 (by decide) (by decide)

/-- Claim C8: the converter is a deterministic function of its inputs:
two images with the same dimensions and the same pixel sampling convert,
under the same resize parameter, to the same segment sequence. -/
theorem claim8_deterministic (img1 img2 : PImage) (resize : Option (Nat × Nat))
    (hw : img1.width = img2.width) (hh : img1.height = img2.height)
    (hp : ∀ x y, img1.pixel x y = img2.pixel x y) :
    segmentsFromImage img1 resize = segmentsFromImage img2 resize := by
  cases img1 with
  | mk w1 h1 p1 =>
    cases img2 with
    | mk w2 h2 p2 =>
      have hw2 : w1 = w2 := hw
      have hh2 : h1 = h2 := hh
      have hp2 : p1 = p2 := funext fun x => funext fun y => hp x y
      subst hw2
      subst hh2
      subst hp2
      rfl

/-- Witness for claim C8: two syntactically different presentations of the
same 2 by 2 image convert to the same sequence. -/
theorem claim8_deterministic_witness :
    segmentsFromImage img2x2 none = segmentsFromImage img2x2b none :=
  claim8_deterministic img2x2 img2x2b none rfl rfl (fun _x _y => rfl)

/-- Claim C9: for positive width every row is retained regardless of
alpha values, the output is the plain concatenation of all height rows and
its length is height times width + 1; for width zero every row is dropped
and the output is empty. -/
theorem claim9_all_rows_retained (image : PImage) (resize : Option (Nat × Nat)) :
    (0 < (effectiveImage image resize).width →
      segmentsFromImage image resize =
        ((List.range (effectiveImage image resize).height).map
          (rowSegments (effectiveImage image resize))).flatten ∧
      (segmentsFromImage image resize).length =
        (effectiveImage image resize).height *
          ((effectiveImage image resize).width + 1)) ∧
    ((effectiveImage image resize).width = 0 →
      segmentsFromImage image resize = []) :=
  ⟨fun h => ⟨segmentsFromImage_of_width_pos image resize h,
    length_segmentsFromImage_of_width_pos image resize h⟩,
   segmentsFromImage_of_width_zero image resize⟩

/-- Witness for claim C9 at the opaque red image. -/
theorem claim9_all_rows_retained_witness :
    0 < (effectiveImage red1x1 none).width ∧
    (segmentsFromImage red1x1 none).length =
      (effectiveImage red1x1 none).height *
        ((effectiveImage red1x1 none).width + 1) :=
  ⟨by decide, ((claim9_all_rows_retained red1x1 none).1 (by decide)).2⟩

/-- Claim C10: whenever the image seen by the row loop has positive
height the asynchronous converter raises TypeError (the built-in all is
given an asynchronous generator), and only height-zero images complete,
returning the empty sequence. -/
theorem claim10_async_type_error (image : PImage) (resize : Option (Nat × Nat)) :
    (0 < (effectiveImage image resize).height →
      asyncSegmentsFromImage image resize = Except.error PyError.typeError) ∧
    ((effectiveImage image resize).height = 0 →
      asyncSegmentsFromImage image resize = Except.ok []) :=
  ⟨asyncSegments_height_pos image resize, asyncSegments_height_zero image resize⟩

/-- Witness for claim C10 at the opaque red image. -/
theorem claim10_async_type_error_witness :
    asyncSegmentsFromImage red1x1 none = Except.error PyError.typeError :=
  (claim10_async_type_error red1x1 none).1 (by decide)

end Ripix
